import Mathlib

/-!
Shallow embedding of the trajectory-geometry code of the Dobot magician
repository (execute_arc_trajectory.py, circle_from_current_pos.py,
execute_3d_circle.py), together with theorems settling the specification
claims about it.  Real numbers stand in for Python floats; Python float
division raising ZeroDivisionError on a zero denominator is modelled by
pydiv returning an error in the Except monad.
-/

namespace DobotMagician

/-- A commandable end-effector pose: coordinates x, y, z and the wrist
rotation r, as in the Python dictionaries with keys x, y, z, r. -/
structure Pose where
  x : ℝ
  y : ℝ
  z : ℝ
  r : ℝ

/-- A 3-component vector, as handled by execute_3d_circle.py through numpy. -/
structure Vec3 where
  x : ℝ
  y : ℝ
  z : ℝ

namespace Vec3

/-- Componentwise vector addition. -/
def add (a b : Vec3) : Vec3 := ⟨a.x + b.x, a.y + b.y, a.z + b.z⟩

/-- Componentwise vector subtraction. -/
def sub (a b : Vec3) : Vec3 := ⟨a.x - b.x, a.y - b.y, a.z - b.z⟩

/-- Scalar multiple of a vector. -/
def smul (c : ℝ) (v : Vec3) : Vec3 := ⟨c * v.x, c * v.y, c * v.z⟩

/-- Dot product of 3-vectors, as numpy np.dot computes it. -/
def dot (a b : Vec3) : ℝ := a.x * b.x + a.y * b.y + a.z * b.z

/-- Cross product of 3-vectors, as numpy np.cross computes it. -/
def cross (a b : Vec3) : Vec3 :=
  ⟨a.y * b.z - a.z * b.y, a.z * b.x - a.x * b.z, a.x * b.y - a.y * b.x⟩

/-- Euclidean norm of a 3-vector, as numpy np.linalg.norm computes it. -/
noncomputable def norm (v : Vec3) : ℝ := Real.sqrt (v.x ^ 2 + v.y ^ 2 + v.z ^ 2)

end Vec3

/-- Degrees to radians, Python math.radians. -/
noncomputable def radians (d : ℝ) : ℝ := d * Real.pi / 180

/-- Radians to degrees, Python math.degrees. -/
noncomputable def degrees (x : ℝ) : ℝ := x * 180 / Real.pi

/-- Python math.atan2 y x, modelled as the complex argument of x + y i. -/
noncomputable def atan2 (y x : ℝ) : ℝ := Complex.arg ⟨x, y⟩

/-- Python float division: raises ZeroDivisionError when the denominator is
zero, modelled here as an error value in the Except monad. -/
noncomputable def pydiv (a b : ℝ) : Except String ℝ :=
  if b = 0 then Except.error "ZeroDivisionError: float division by zero"
  else Except.ok (a / b)

/-- Z-coordinate dispatch of calculate_arc_points (execute_arc_trajectory.py
lines 74-85; circle_from_current_pos.py lines 84-95 is an identical copy):
explicit start/end form, with the final else branch repeating the linear
formula for any unrecognized z_variation_type. -/
noncomputable def zVariation (ty : String) (start_z end_z progress : ℝ) : ℝ :=
  if ty = "linear" then start_z + (end_z - start_z) * progress
  else if ty = "sine" then start_z + (end_z - start_z) * Real.sin (progress * Real.pi)
  else if ty = "cosine" then
    start_z + (end_z - start_z) * (1 - Real.cos (progress * Real.pi)) / 2
  else start_z + (end_z - start_z) * progress

/-- Z-coordinate dispatch of calculate_circle_points_from_current_pos
(circle_from_current_pos.py lines 145-156): offset-around-center form, whose
final else branch (reached for the documented value none and for any other
unrecognized z_variation_type) keeps z at the center height. -/
noncomputable def zVariationOffset (ty : String) (center_z z_offset progress : ℝ) : ℝ :=
  if ty = "linear" then center_z + z_offset * (2 * progress - 1)
  else if ty = "sine" then center_z + z_offset * Real.sin (progress * 2 * Real.pi)
  else if ty = "cosine" then center_z + z_offset * Real.cos (progress * 2 * Real.pi)
  else center_z

/-- Effective radius of calculate_arc_points (execute_arc_trajectory.py lines
34-38): the given radius, or the planar distance from the reference pose to
the center when radius is None. -/
noncomputable def eff_radius (pose : Pose) (cx cy : ℝ) : Option ℝ → ℝ
  | none => Real.sqrt ((pose.x - cx) ^ 2 + (pose.y - cy) ^ 2)
  | some r => r

/-- Effective start_z and end_z of calculate_arc_points
(execute_arc_trajectory.py lines 41-49): center_z plus the reference z when
unspecified, else center_z plus the given value. -/
def eff_z (pose : Pose) (cz : ℝ) : Option ℝ → ℝ
  | none => cz + pose.z
  | some v => cz + v

/-- Embedding of RobotArcController.calculate_arc_points
(execute_arc_trajectory.py lines 15-91; circle_from_current_pos.py lines
25-101 is an identical copy).  The list angles with angles[i] = start_angle +
i * angle_step is traversed by index here; the per-point progress is written
with plain real division because that statement only executes after the
angle_step division has succeeded with the very same denominator.  The unused
binding mirrors the dead current_angle computation at lines 51-54. -/
noncomputable def calculate_arc_points (pose : Pose) (cx cy cz : ℝ)
    (radiuso : Option ℝ) (num_points : ℕ) (start_angle end_angle : ℝ)
    (start_zo end_zo : Option ℝ) (ty : String) : Except String (List Pose) :=
  let radius := eff_radius pose cx cy radiuso
  let start_z := eff_z pose cz start_zo
  let end_z := eff_z pose cz end_zo
  let _current_angle := degrees (atan2 (pose.y - cy) (pose.x - cx))
  (pydiv (end_angle - start_angle) ((num_points : ℝ) - 1)).map fun angle_step =>
    (List.range num_points).map fun (i : ℕ) =>
      let angle := start_angle + (i : ℝ) * angle_step
      let angle_rad := radians angle
      let x := cx + radius * Real.sin angle_rad
      let y := cy + radius * (-Real.cos angle_rad)
      let progress := (i : ℝ) / ((num_points : ℝ) - 1)
      let z := zVariation ty start_z end_z progress
      ⟨x, y, z, pose.r⟩

/-- Embedding of calculate_circle_points_from_current_pos
(circle_from_current_pos.py lines 103-160).  The pose argument is the live
get_current_pose snapshot taken at line 118, used as the circle center. -/
noncomputable def calculate_circle_points_from_current_pos (pose : Pose)
    (radius : ℝ) (num_points : ℕ) (start_angle end_angle : ℝ)
    (z_offset : ℝ) (ty : String) : Except String (List Pose) :=
  (pydiv (end_angle - start_angle) ((num_points : ℝ) - 1)).map fun angle_step =>
    (List.range num_points).map fun (i : ℕ) =>
      let angle := start_angle + (i : ℝ) * angle_step
      let angle_rad := radians angle
      let x := pose.x + radius * Real.cos angle_rad
      let y := pose.y + radius * Real.sin angle_rad
      let progress := if 1 < num_points then (i : ℝ) / ((num_points : ℝ) - 1) else 0
      let z := zVariationOffset ty pose.z z_offset progress
      ⟨x, y, z, pose.r⟩

/-- Embedding of Robot3DCircleController.normalize_vector
(execute_3d_circle.py lines 25-31): the zero vector is returned unchanged. -/
noncomputable def normalize_vector (v : Vec3) : Vec3 :=
  if v.norm = 0 then v else ⟨v.x / v.norm, v.y / v.norm, v.z / v.norm⟩

/-- The output of create_rotation_matrix, recorded through the three columns
u, v, n of the 3x3 matrix assembled at line 63 of execute_3d_circle.py. -/
structure Basis3 where
  u : Vec3
  v : Vec3
  n : Vec3

/-- Embedding of create_rotation_matrix (execute_3d_circle.py lines 33-65). -/
noncomputable def create_rotation_matrix (normal_vector : Vec3)
    (up_vectoro : Option Vec3) : Basis3 :=
  let n := normalize_vector normal_vector
  let up : Vec3 :=
    match up_vectoro with
    | none => if |n.x| < 0.9 then ⟨1, 0, 0⟩ else ⟨0, 1, 0⟩
    | some u => u
  let u := normalize_vector (Vec3.sub up (Vec3.smul (Vec3.dot up n) n))
  let v := normalize_vector (Vec3.cross n u)
  ⟨u, v, n⟩

/-- Angle sequence of calculate_3d_circle_points (execute_3d_circle.py lines
86-91): a single start_angle when num_points is one, else num_points stepped
angles. -/
noncomputable def sample_angles (s e : ℝ) (num_points : ℕ) : Except String (List ℝ) :=
  if num_points = 1 then Except.ok [s]
  else (pydiv (e - s) ((num_points : ℝ) - 1)).map fun step =>
    (List.range num_points).map fun (i : ℕ) => s + (i : ℝ) * step

/-- Loop body of calculate_3d_circle_points (execute_3d_circle.py lines
97-115): a local convention-B point at local height zero, rotated through the
basis columns and translated to the center. -/
noncomputable def circle3dPoint (B : Basis3) (center : Vec3) (radius r0 θ : ℝ) : Pose :=
  let angle_rad := radians θ
  let local_x := radius * Real.cos angle_rad
  let local_y := radius * Real.sin angle_rad
  let local_z : ℝ := 0
  let g := Vec3.add (Vec3.add (Vec3.add (Vec3.smul local_x B.u)
    (Vec3.smul local_y B.v)) (Vec3.smul local_z B.n)) center
  ⟨g.x, g.y, g.z, r0⟩

/-- Embedding of calculate_3d_circle_points (execute_3d_circle.py lines
67-117); r0 is the wrist angle read once from the current pose at line 95. -/
noncomputable def calculate_3d_circle_points (r0 : ℝ) (center : Vec3) (radius : ℝ)
    (normal_vector : Vec3) (num_points : ℕ) (start_angle end_angle : ℝ)
    (up_vectoro : Option Vec3) : Except String (List Pose) :=
  let B := create_rotation_matrix normal_vector up_vectoro
  (sample_angles start_angle end_angle num_points).map fun angles =>
    angles.map fun θ => circle3dPoint B center radius r0 θ

/-- Center of the two-point semicircle (execute_3d_circle.py line 181): the
midpoint of the start and target points. -/
noncomputable def two_point_center (p t : Vec3) : Vec3 :=
  ⟨(p.x + t.x) / 2, (p.y + t.y) / 2, (p.z + t.z) / 2⟩

/-- Radius of the two-point semicircle (execute_3d_circle.py line 184): half
the distance between start and target. -/
noncomputable def two_point_radius (p t : Vec3) : ℝ := Vec3.norm (Vec3.sub t p) / 2

/-- Default plane normal of the two-point semicircle (execute_3d_circle.py
lines 187-193). -/
noncomputable def two_point_normal (p t : Vec3) : Vec3 :=
  let line := Vec3.sub t p
  if |line.z| < 0.9 * Vec3.norm line then Vec3.cross line ⟨0, 0, 1⟩
  else Vec3.cross line ⟨1, 0, 0⟩

/-- Trajectory computed by execute_circle_from_current_to_point
(execute_3d_circle.py lines 166-200): center, radius and default normal as
above, handed to calculate_3d_circle_points through execute_3d_circle with
the fixed angle range 0 to 180 and the up_vector default of None. -/
noncomputable def circle_from_current_to_point_points (current : Pose) (target : Vec3)
    (num_points : ℕ) (plane_normalo : Option Vec3) : Except String (List Pose) :=
  let p : Vec3 := ⟨current.x, current.y, current.z⟩
  let normal :=
    match plane_normalo with
    | some nv => nv
    | none => two_point_normal p target
  calculate_3d_circle_points current.r (two_point_center p target)
    (two_point_radius p target) normal num_points 0 180 none

/-- Angle of the i-th sample, in the closed form the specification states. -/
noncomputable def arcAngle (s e : ℝ) (N i : ℕ) : ℝ :=
  s + (i : ℝ) * ((e - s) / ((N : ℝ) - 1))

/-- Progress of the i-th sample, in the closed form the specification
states. -/
noncomputable def arcProgress (N i : ℕ) : ℝ := (i : ℝ) / ((N : ℝ) - 1)

/-- The i-th pose produced by calculate_arc_points, written with arcAngle and
arcProgress; the in-plane coordinates follow convention A. -/
noncomputable def arcPoseA (pose : Pose) (cx cy cz : ℝ)
    (radiuso start_zo end_zo : Option ℝ) (ty : String) (s e : ℝ) (N i : ℕ) : Pose :=
  ⟨cx + eff_radius pose cx cy radiuso * Real.sin (radians (arcAngle s e N i)),
   cy + eff_radius pose cx cy radiuso * (-Real.cos (radians (arcAngle s e N i))),
   zVariation ty (eff_z pose cz start_zo) (eff_z pose cz end_zo) (arcProgress N i),
   pose.r⟩

/-- The i-th pose produced by calculate_circle_points_from_current_pos,
written with arcAngle and arcProgress; the in-plane coordinates follow
convention B. -/
noncomputable def circlePoseB (pose : Pose) (radius z_offset : ℝ) (ty : String)
    (s e : ℝ) (N i : ℕ) : Pose :=
  ⟨pose.x + radius * Real.cos (radians (arcAngle s e N i)),
   pose.y + radius * Real.sin (radians (arcAngle s e N i)),
   zVariationOffset ty pose.z z_offset (arcProgress N i),
   pose.r⟩

/-- Modelled from the spec: the axis-aligned convention-B planar point that
the oriented generator must reduce to for normal (0,0,1) and hint (1,0,0). -/
noncomputable def specPlanarPointB (c : Vec3) (radius r0 θ : ℝ) : Pose :=
  ⟨c.x + radius * Real.cos (radians θ), c.y + radius * Real.sin (radians θ), c.z, r0⟩

/-- The sample-count denominator is nonzero once at least two points are
requested. -/
lemma den_ne (N : ℕ) (hN : 2 ≤ N) : ((N : ℝ) - 1) ≠ 0 := by
  have h2 : (2 : ℝ) ≤ (N : ℝ) := by exact_mod_cast hN
  intro h
  linarith

/-- With at least two points, calculate_arc_points succeeds and returns the
poses described by arcPoseA, indexed over the range of num_points. -/
lemma calc_arc_ok (pose : Pose) (cx cy cz : ℝ) (radiuso : Option ℝ) (N : ℕ)
    (s e : ℝ) (szo ezo : Option ℝ) (ty : String) (hN : 2 ≤ N) :
    calculate_arc_points pose cx cy cz radiuso N s e szo ezo ty =
      Except.ok ((List.range N).map fun i =>
        arcPoseA pose cx cy cz radiuso szo ezo ty s e N i) := by
  have hd := den_ne N hN
  unfold calculate_arc_points pydiv
  rw [if_neg hd]
  rfl

/-- With at least two points, calculate_circle_points_from_current_pos
succeeds and returns the poses described by circlePoseB. -/
lemma calc_circle_ok (pose : Pose) (radius : ℝ) (N : ℕ) (s e z_offset : ℝ)
    (ty : String) (hN : 2 ≤ N) :
    calculate_circle_points_from_current_pos pose radius N s e z_offset ty =
      Except.ok ((List.range N).map fun i => circlePoseB pose radius z_offset ty s e N i) := by
  have hd := den_ne N hN
  have h1 : 1 < N := by omega
  unfold calculate_circle_points_from_current_pos pydiv
  rw [if_neg hd]
  simp only [if_pos h1]
  rfl

/-- With at least two points, calculate_3d_circle_points succeeds and returns
the rotated poses at the arcAngle samples. -/
lemma calc_3d_ok (r0 : ℝ) (c : Vec3) (radius : ℝ) (nv : Vec3) (N : ℕ)
    (s e : ℝ) (upo : Option Vec3) (hN : 2 ≤ N) :
    calculate_3d_circle_points r0 c radius nv N s e upo =
      Except.ok ((List.range N).map fun i =>
        circle3dPoint (create_rotation_matrix nv upo) c radius r0 (arcAngle s e N i)) := by
  have hd := den_ne N hN
  have h1 : N ≠ 1 := by omega
  unfold calculate_3d_circle_points sample_angles pydiv
  rw [if_neg h1, if_neg hd]
  show Except.ok _ = Except.ok _
  dsimp only
  rw [List.map_map]
  rfl

/-- The first sampled angle is the start angle. -/
lemma arcAngle_zero (s e : ℝ) (N : ℕ) : arcAngle s e N 0 = s := by
  unfold arcAngle
  simp

/-- The last sampled angle is exactly the end angle once at least two points
are requested. -/
lemma arcAngle_last (s e : ℝ) (N : ℕ) (hN : 2 ≤ N) : arcAngle s e N (N - 1) = e := by
  have hd := den_ne N hN
  unfold arcAngle
  have hc : ((N - 1 : ℕ) : ℝ) = (N : ℝ) - 1 := by
    have h1 : 1 ≤ N := by omega
    push_cast [h1]
    ring
  rw [hc]
  field_simp

/-- The first progress value is zero. -/
lemma arcProgress_zero (N : ℕ) : arcProgress N 0 = 0 := by
  unfold arcProgress
  simp

/-- The last progress value is exactly one once at least two points are
requested. -/
lemma arcProgress_last (N : ℕ) (hN : 2 ≤ N) : arcProgress N (N - 1) = 1 := by
  have hd := den_ne N hN
  unfold arcProgress
  have hc : ((N - 1 : ℕ) : ℝ) = (N : ℝ) - 1 := by
    have h1 : 1 ≤ N := by omega
    push_cast [h1]
    ring
  rw [hc, div_self hd]

/-- C1: for every arc-sampling call with num_points = N greater or equal 2,
each of calculate_arc_points, calculate_circle_points_from_current_pos and
calculate_3d_circle_points returns exactly N poses, the i-th one at angle
startAngle + i * (endAngle - startAngle) / (N - 1) and progress i / (N - 1),
so the angles are evenly spaced and include both endpoints exactly and the
progress runs evenly from 0 to 1 inclusive. -/
theorem spec_C1 (pose : Pose) (cx cy cz : ℝ) (radiuso szo ezo : Option ℝ)
    (ty : String) (radius r0 : ℝ) (c nv : Vec3) (upo : Option Vec3)
    (z_offset : ℝ) (s e : ℝ) (N : ℕ) (hN : 2 ≤ N) :
    calculate_arc_points pose cx cy cz radiuso N s e szo ezo ty =
      Except.ok ((List.range N).map fun i =>
        arcPoseA pose cx cy cz radiuso szo ezo ty s e N i) ∧
    calculate_circle_points_from_current_pos pose radius N s e z_offset ty =
      Except.ok ((List.range N).map fun i => circlePoseB pose radius z_offset ty s e N i) ∧
    calculate_3d_circle_points r0 c radius nv N s e upo =
      Except.ok ((List.range N).map fun i =>
        circle3dPoint (create_rotation_matrix nv upo) c radius r0 (arcAngle s e N i)) ∧
    ((List.range N).map fun i =>
        arcPoseA pose cx cy cz radiuso szo ezo ty s e N i).length = N ∧
    arcAngle s e N 0 = s ∧ arcAngle s e N (N - 1) = e ∧
    arcProgress N 0 = 0 ∧ arcProgress N (N - 1) = 1 :=
  ⟨calc_arc_ok pose cx cy cz radiuso N s e szo ezo ty hN,
   calc_circle_ok pose radius N s e z_offset ty hN,
   calc_3d_ok r0 c radius nv N s e upo hN,
   by simp,
   arcAngle_zero s e N, arcAngle_last s e N hN,
   arcProgress_zero N, arcProgress_last N hN⟩

/-- Witness for C1 at N = 2 with concrete inputs. -/
theorem spec_C1_witness :
    2 ≤ 2 ∧
    (calculate_arc_points ⟨0, 0, 0, 0⟩ 0 0 0 (some 1) 2 0 360 (some 0) (some 0) "linear" =
      Except.ok ((List.range 2).map fun i =>
        arcPoseA ⟨0, 0, 0, 0⟩ 0 0 0 (some 1) (some 0) (some 0) "linear" 0 360 2 i) ∧
    calculate_circle_points_from_current_pos ⟨0, 0, 0, 0⟩ 1 2 0 360 0 "linear" =
      Except.ok ((List.range 2).map fun i => circlePoseB ⟨0, 0, 0, 0⟩ 1 0 "linear" 0 360 2 i) ∧
    calculate_3d_circle_points 0 ⟨0, 0, 0⟩ 1 ⟨0, 0, 1⟩ 2 0 360 none =
      Except.ok ((List.range 2).map fun i =>
        circle3dPoint (create_rotation_matrix ⟨0, 0, 1⟩ none) ⟨0, 0, 0⟩ 1 0
          (arcAngle 0 360 2 i)) ∧
    ((List.range 2).map fun i =>
        arcPoseA ⟨0, 0, 0, 0⟩ 0 0 0 (some 1) (some 0) (some 0) "linear" 0 360 2 i).length = 2 ∧
    arcAngle 0 360 2 0 = 0 ∧ arcAngle 0 360 2 (2 - 1) = 360 ∧
    arcProgress 2 0 = 0 ∧ arcProgress 2 (2 - 1) = 1) :=
  ⟨by norm_num,
   spec_C1 ⟨0, 0, 0, 0⟩ 0 0 0 (some 1) (some 0) (some 0) "linear" 1 0 ⟨0, 0, 0⟩ ⟨0, 0, 1⟩
     none 0 0 360 2 (by norm_num)⟩

/-- C2: for every sampled index, calculate_arc_points uses convention A
(x = center_x + r sin θ, y = center_y - r cos θ), while
calculate_circle_points_from_current_pos and, in its local frame,
calculate_3d_circle_points use convention B (x = center_x + r cos θ,
y = center_y + r sin θ). -/
theorem spec_C2 (pose : Pose) (cx cy cz : ℝ) (radiuso szo ezo : Option ℝ)
    (ty : String) (radius r0 : ℝ) (c nv : Vec3) (upo : Option Vec3)
    (z_offset : ℝ) (s e : ℝ) (N i : ℕ) (B : Basis3)
    (hN : 2 ≤ N) (hi : i < N) (hB : B = create_rotation_matrix nv upo) :
    ∃ L₁ L₂ L₃ : List Pose,
      calculate_arc_points pose cx cy cz radiuso N s e szo ezo ty = Except.ok L₁ ∧
      calculate_circle_points_from_current_pos pose radius N s e z_offset ty = Except.ok L₂ ∧
      calculate_3d_circle_points r0 c radius nv N s e upo = Except.ok L₃ ∧
      L₁[i]?.map Pose.x =
        some (cx + eff_radius pose cx cy radiuso * Real.sin (radians (arcAngle s e N i))) ∧
      L₁[i]?.map Pose.y =
        some (cy - eff_radius pose cx cy radiuso * Real.cos (radians (arcAngle s e N i))) ∧
      L₂[i]?.map Pose.x = some (pose.x + radius * Real.cos (radians (arcAngle s e N i))) ∧
      L₂[i]?.map Pose.y = some (pose.y + radius * Real.sin (radians (arcAngle s e N i))) ∧
      L₃[i]? = some
        ⟨radius * Real.cos (radians (arcAngle s e N i)) * B.u.x +
           radius * Real.sin (radians (arcAngle s e N i)) * B.v.x + c.x,
         radius * Real.cos (radians (arcAngle s e N i)) * B.u.y +
           radius * Real.sin (radians (arcAngle s e N i)) * B.v.y + c.y,
         radius * Real.cos (radians (arcAngle s e N i)) * B.u.z +
           radius * Real.sin (radians (arcAngle s e N i)) * B.v.z + c.z,
         r0⟩ := by
  subst hB
  refine ⟨_, _, _, calc_arc_ok pose cx cy cz radiuso N s e szo ezo ty hN,
    calc_circle_ok pose radius N s e z_offset ty hN,
    calc_3d_ok r0 c radius nv N s e upo hN, ?_, ?_, ?_, ?_, ?_⟩
  · simp only [List.getElem?_map, List.getElem?_range hi, Option.map_some']
    rfl
  · simp only [List.getElem?_map, List.getElem?_range hi, Option.map_some']
    unfold arcPoseA
    simp only [Option.some.injEq]
    ring
  · simp only [List.getElem?_map, List.getElem?_range hi, Option.map_some']
    rfl
  · simp only [List.getElem?_map, List.getElem?_range hi, Option.map_some']
    rfl
  · simp only [List.getElem?_map, List.getElem?_range hi, Option.map_some']
    unfold circle3dPoint
    simp only [Vec3.add, Vec3.smul, Option.some.injEq, Pose.mk.injEq]
    refine ⟨by ring, by ring, by ring, trivial⟩

/-- Witness for C2 at N = 2, i = 1 with concrete inputs. -/
theorem spec_C2_witness :
    2 ≤ 2 ∧ 1 < 2 ∧
    (∃ L₁ L₂ L₃ : List Pose,
      calculate_arc_points ⟨0, 0, 0, 0⟩ 0 0 0 (some 1) 2 0 360 (some 0) (some 0) "linear" =
        Except.ok L₁ ∧
      calculate_circle_points_from_current_pos ⟨0, 0, 0, 0⟩ 1 2 0 360 0 "linear" =
        Except.ok L₂ ∧
      calculate_3d_circle_points 0 ⟨0, 0, 0⟩ 1 ⟨0, 0, 1⟩ 2 0 360 none = Except.ok L₃ ∧
      L₁[1]?.map Pose.x =
        some (0 + eff_radius ⟨0, 0, 0, 0⟩ 0 0 (some 1) * Real.sin (radians (arcAngle 0 360 2 1))) ∧
      L₁[1]?.map Pose.y =
        some (0 - eff_radius ⟨0, 0, 0, 0⟩ 0 0 (some 1) * Real.cos (radians (arcAngle 0 360 2 1))) ∧
      L₂[1]?.map Pose.x =
        some ((Pose.mk 0 0 0 0).x + 1 * Real.cos (radians (arcAngle 0 360 2 1))) ∧
      L₂[1]?.map Pose.y =
        some ((Pose.mk 0 0 0 0).y + 1 * Real.sin (radians (arcAngle 0 360 2 1))) ∧
      L₃[1]? = some
        ⟨1 * Real.cos (radians (arcAngle 0 360 2 1)) * (create_rotation_matrix ⟨0, 0, 1⟩ none).u.x +
           1 * Real.sin (radians (arcAngle 0 360 2 1)) * (create_rotation_matrix ⟨0, 0, 1⟩ none).v.x + (0 : ℝ),
         1 * Real.cos (radians (arcAngle 0 360 2 1)) * (create_rotation_matrix ⟨0, 0, 1⟩ none).u.y +
           1 * Real.sin (radians (arcAngle 0 360 2 1)) * (create_rotation_matrix ⟨0, 0, 1⟩ none).v.y + (0 : ℝ),
         1 * Real.cos (radians (arcAngle 0 360 2 1)) * (create_rotation_matrix ⟨0, 0, 1⟩ none).u.z +
           1 * Real.sin (radians (arcAngle 0 360 2 1)) * (create_rotation_matrix ⟨0, 0, 1⟩ none).v.z + (0 : ℝ),
         0⟩) :=
  ⟨by norm_num, by norm_num,
   spec_C2 ⟨0, 0, 0, 0⟩ 0 0 0 (some 1) (some 0) (some 0) "linear" 1 0 ⟨0, 0, 0⟩ ⟨0, 0, 1⟩
     none 0 0 360 2 1 (create_rotation_matrix ⟨0, 0, 1⟩ none) (by norm_num) (by norm_num) rfl⟩

/-- C10: once radius, start_z and end_z are all supplied explicitly, the
output of calculate_arc_points does not depend on the x and y components of
the stored reference pose; the dead current_angle computation never feeds the
result. -/
theorem spec_C10 (x₁ y₁ x₂ y₂ z r cx cy cz radius s e sz ez : ℝ) (N : ℕ) (ty : String) :
    calculate_arc_points ⟨x₁, y₁, z, r⟩ cx cy cz (some radius) N s e (some sz) (some ez) ty =
      calculate_arc_points ⟨x₂, y₂, z, r⟩ cx cy cz (some radius) N s e (some sz) (some ez) ty :=
  rfl

/-- C3 counterexample: with num_points = 1 the planar generators do not
return a single-point sequence; they hit the unguarded angle_step division
and raise ZeroDivisionError. -/
theorem spec_C3_counterexample :
    calculate_arc_points ⟨0, -200, -30, 0⟩ 0 0 0 (some 200) 1 0 360 (some 0) (some 0) "linear" =
      Except.error "ZeroDivisionError: float division by zero" ∧
    calculate_circle_points_from_current_pos ⟨0, -200, -30, 0⟩ 200 1 0 360 0 "none" =
      Except.error "ZeroDivisionError: float division by zero" := by
  have h0 : ((1 : ℕ) : ℝ) - 1 = 0 := by norm_num
  constructor
  · unfold calculate_arc_points pydiv
    rw [if_pos h0]
    rfl
  · unfold calculate_circle_points_from_current_pos pydiv
    rw [if_pos h0]
    rfl

/-- C3 amended: with num_points = 1, only calculate_3d_circle_points returns
a single-element sequence at start_angle without dividing by zero; both
calculate_arc_points and calculate_circle_points_from_current_pos instead
raise ZeroDivisionError while computing angle_step. -/
theorem spec_C3_amended (r0 radius s e cx cy cz z_offset : ℝ) (c nv : Vec3)
    (upo : Option Vec3) (pose : Pose) (radiuso szo ezo : Option ℝ) (ty : String) :
    calculate_3d_circle_points r0 c radius nv 1 s e upo =
      Except.ok [circle3dPoint (create_rotation_matrix nv upo) c radius r0 s] ∧
    calculate_arc_points pose cx cy cz radiuso 1 s e szo ezo ty =
      Except.error "ZeroDivisionError: float division by zero" ∧
    calculate_circle_points_from_current_pos pose radius 1 s e z_offset ty =
      Except.error "ZeroDivisionError: float division by zero" := by
  have h0 : ((1 : ℕ) : ℝ) - 1 = 0 := by norm_num
  refine ⟨?_, ?_, ?_⟩
  · unfold calculate_3d_circle_points sample_angles
    rw [if_pos rfl]
    rfl
  · unfold calculate_arc_points pydiv
    rw [if_pos h0]
    rfl
  · unfold calculate_circle_points_from_current_pos pydiv
    rw [if_pos h0]
    rfl

/-- C8 counterexample: with num_points = 0 the generators are not rejected
with an invalid-configuration error; they silently return the empty
sequence. -/
theorem spec_C8_counterexample :
    calculate_arc_points ⟨0, -200, -30, 0⟩ 0 0 0 (some 200) 0 0 360 (some 0) (some 0) "linear" =
      Except.ok [] ∧
    calculate_3d_circle_points 0 ⟨200, 0, 50⟩ 30 ⟨0, 0, 1⟩ 0 0 360 none = Except.ok [] := by
  have h0 : ((0 : ℕ) : ℝ) - 1 ≠ 0 := by norm_num
  constructor
  · unfold calculate_arc_points pydiv
    rw [if_neg h0]
    rfl
  · unfold calculate_3d_circle_points sample_angles pydiv
    rw [if_neg (by norm_num : (0 : ℕ) ≠ 1), if_neg h0]
    rfl

/-- C8 amended: with num_points = 0, calculate_arc_points and
calculate_3d_circle_points raise no error and return the empty sequence. -/
theorem spec_C8_amended (pose : Pose) (cx cy cz s e radius r0 : ℝ)
    (radiuso szo ezo : Option ℝ) (ty : String) (c nv : Vec3) (upo : Option Vec3) :
    calculate_arc_points pose cx cy cz radiuso 0 s e szo ezo ty = Except.ok [] ∧
    calculate_3d_circle_points r0 c radius nv 0 s e upo = Except.ok [] := by
  have h0 : ((0 : ℕ) : ℝ) - 1 ≠ 0 := by norm_num
  constructor
  · unfold calculate_arc_points pydiv
    rw [if_neg h0]
    rfl
  · unfold calculate_3d_circle_points sample_angles pydiv
    rw [if_neg (by norm_num : (0 : ℕ) ≠ 1), if_neg h0]
    rfl

/-- C7 amended: an unrecognized z_variation_type is not an error; in
calculate_arc_points (both copies) it falls back to the linear explicit
start/end form, behaving exactly like the value linear, while in
calculate_circle_points_from_current_pos it falls back to no Z variation at
all, behaving exactly like the value none (z stays at the center height). -/
theorem spec_C7_amended (ty : String) (h1 : ty ≠ "linear") (h2 : ty ≠ "sine")
    (h3 : ty ≠ "cosine") (pose : Pose) (cx cy cz radius z_offset s e : ℝ)
    (radiuso szo ezo : Option ℝ) (N : ℕ) :
    calculate_arc_points pose cx cy cz radiuso N s e szo ezo ty =
      calculate_arc_points pose cx cy cz radiuso N s e szo ezo "linear" ∧
    calculate_circle_points_from_current_pos pose radius N s e z_offset ty =
      calculate_circle_points_from_current_pos pose radius N s e z_offset "none" := by
  have hz : ∀ a b p : ℝ, zVariation ty a b p = zVariation "linear" a b p := by
    intro a b p
    unfold zVariation
    rw [if_neg h1, if_neg h2, if_neg h3, if_pos rfl]
  have hz2 : ∀ a b p : ℝ, zVariationOffset ty a b p = zVariationOffset "none" a b p := by
    intro a b p
    unfold zVariationOffset
    rw [if_neg h1, if_neg h2, if_neg h3,
      if_neg (by decide : ¬("none" : String) = "linear"),
      if_neg (by decide : ¬("none" : String) = "sine"),
      if_neg (by decide : ¬("none" : String) = "cosine")]
  constructor
  · unfold calculate_arc_points
    simp only [hz]
  · unfold calculate_circle_points_from_current_pos
    simp only [hz2]

/-- Witness for C7 amended at the unrecognized name bogus. -/
theorem spec_C7_witness :
    ("bogus" : String) ≠ "linear" ∧ ("bogus" : String) ≠ "sine" ∧
    ("bogus" : String) ≠ "cosine" ∧
    (calculate_arc_points ⟨0, 0, 0, 0⟩ 0 0 0 (some 1) 2 0 360 (some 0) (some 0) "bogus" =
       calculate_arc_points ⟨0, 0, 0, 0⟩ 0 0 0 (some 1) 2 0 360 (some 0) (some 0) "linear" ∧
     calculate_circle_points_from_current_pos ⟨0, 0, 0, 0⟩ 1 2 0 360 1 "bogus" =
       calculate_circle_points_from_current_pos ⟨0, 0, 0, 0⟩ 1 2 0 360 1 "none") :=
  ⟨by decide, by decide, by decide,
   spec_C7_amended "bogus" (by decide) (by decide) (by decide) ⟨0, 0, 0, 0⟩
     0 0 0 1 1 0 360 (some 1) (some 0) (some 0) 2⟩

/-- The second of two samples spanning 0 to 360 degrees sits at 360 degrees. -/
lemma radians_arcAngle_360 : radians (arcAngle 0 360 2 1) = 2 * Real.pi := by
  unfold arcAngle radians
  push_cast
  ring

/-- The first of two samples spanning 0 to 360 degrees sits at 0 degrees. -/
lemma radians_arcAngle_0 : radians (arcAngle 0 360 2 0) = 0 := by
  unfold arcAngle radians
  norm_num

/-- The second of two progress samples is 1. -/
lemma arcProgress_2_1 : arcProgress 2 1 = 1 := by
  unfold arcProgress
  norm_num

/-- C7 counterexample: at an unrecognized policy name the offset-around-center
dispatch of calculate_circle_points_from_current_pos keeps z constant at the
center height instead of falling back to any linear interpolation, so its
output differs from the linear policy at the same input. -/
theorem spec_C7_counterexample :
    calculate_circle_points_from_current_pos ⟨0, 0, 0, 0⟩ 1 2 0 360 1 "bogus" =
      Except.ok [⟨1, 0, 0, 0⟩, ⟨1, 0, 0, 0⟩] ∧
    calculate_circle_points_from_current_pos ⟨0, 0, 0, 0⟩ 1 2 0 360 1 "linear" =
      Except.ok [⟨1, 0, -1, 0⟩, ⟨1, 0, 1, 0⟩] ∧
    calculate_circle_points_from_current_pos ⟨0, 0, 0, 0⟩ 1 2 0 360 1 "bogus" ≠
      calculate_circle_points_from_current_pos ⟨0, 0, 0, 0⟩ 1 2 0 360 1 "linear" := by
  have hzb : ∀ p : ℝ, zVariationOffset "bogus" 0 1 p = 0 := by
    intro p
    unfold zVariationOffset
    rw [if_neg (by decide : ¬("bogus" : String) = "linear"),
      if_neg (by decide : ¬("bogus" : String) = "sine"),
      if_neg (by decide : ¬("bogus" : String) = "cosine")]
  have hzl : ∀ p : ℝ, zVariationOffset "linear" 0 1 p = 2 * p - 1 := by
    intro p
    unfold zVariationOffset
    rw [if_pos rfl]
    ring
  have hr2 : List.range 2 = [0, 1] := rfl
  have hcb0 : circlePoseB ⟨0, 0, 0, 0⟩ 1 1 "bogus" 0 360 2 0 = ⟨1, 0, 0, 0⟩ := by
    unfold circlePoseB
    rw [radians_arcAngle_0, arcProgress_zero, hzb]
    norm_num [Real.cos_zero, Real.sin_zero]
  have hcb1 : circlePoseB ⟨0, 0, 0, 0⟩ 1 1 "bogus" 0 360 2 1 = ⟨1, 0, 0, 0⟩ := by
    unfold circlePoseB
    rw [radians_arcAngle_360, arcProgress_2_1, hzb]
    norm_num [Real.cos_two_pi, Real.sin_two_pi]
  have hcl0 : circlePoseB ⟨0, 0, 0, 0⟩ 1 1 "linear" 0 360 2 0 = ⟨1, 0, -1, 0⟩ := by
    unfold circlePoseB
    rw [radians_arcAngle_0, arcProgress_zero, hzl]
    norm_num [Real.cos_zero, Real.sin_zero]
  have hcl1 : circlePoseB ⟨0, 0, 0, 0⟩ 1 1 "linear" 0 360 2 1 = ⟨1, 0, 1, 0⟩ := by
    unfold circlePoseB
    rw [radians_arcAngle_360, arcProgress_2_1, hzl]
    norm_num [Real.cos_two_pi, Real.sin_two_pi]
  have heb : calculate_circle_points_from_current_pos ⟨0, 0, 0, 0⟩ 1 2 0 360 1 "bogus" =
      Except.ok [⟨1, 0, 0, 0⟩, ⟨1, 0, 0, 0⟩] := by
    rw [calc_circle_ok _ _ _ _ _ _ _ (by norm_num), hr2]
    simp only [List.map_cons, List.map_nil, hcb0, hcb1]
  have hel : calculate_circle_points_from_current_pos ⟨0, 0, 0, 0⟩ 1 2 0 360 1 "linear" =
      Except.ok [⟨1, 0, -1, 0⟩, ⟨1, 0, 1, 0⟩] := by
    rw [calc_circle_ok _ _ _ _ _ _ _ (by norm_num), hr2]
    simp only [List.map_cons, List.map_nil, hcl0, hcl1]
  refine ⟨heb, hel, ?_⟩
  rw [heb, hel]
  simp only [ne_eq, Except.ok.injEq, List.cons.injEq, Pose.mk.injEq]
  norm_num

/-- Two 3-vectors with equal components are equal. -/
lemma Vec3.eq_of_components {a b : Vec3} (hx : a.x = b.x) (hy : a.y = b.y)
    (hz : a.z = b.z) : a = b := by
  cases a
  cases b
  simp_all

/-- The squared norm of a 3-vector is its sum of squared components. -/
lemma Vec3.sq_norm (v : Vec3) : v.norm ^ 2 = v.x ^ 2 + v.y ^ 2 + v.z ^ 2 :=
  Real.sq_sqrt (by positivity)

/-- The norm vanishes exactly on the zero vector. -/
lemma Vec3.norm_eq_zero_iff (v : Vec3) : v.norm = 0 ↔ v = ⟨0, 0, 0⟩ := by
  unfold Vec3.norm
  rw [Real.sqrt_eq_zero (by positivity)]
  constructor
  · intro h
    have hx : v.x = 0 := by nlinarith [sq_nonneg v.x, sq_nonneg v.y, sq_nonneg v.z]
    have hy : v.y = 0 := by nlinarith [sq_nonneg v.x, sq_nonneg v.y, sq_nonneg v.z]
    have hz : v.z = 0 := by nlinarith [sq_nonneg v.x, sq_nonneg v.y, sq_nonneg v.z]
    exact Vec3.eq_of_components hx hy hz
  · rintro rfl
    norm_num

/-- Normalizing a nonzero vector yields a unit vector. -/
lemma norm_normalize (v : Vec3) (hv : v ≠ ⟨0, 0, 0⟩) : (normalize_vector v).norm = 1 := by
  have hn0 : v.norm ≠ 0 := fun h => hv ((Vec3.norm_eq_zero_iff v).mp h)
  have hsq := Vec3.sq_norm v
  unfold normalize_vector
  rw [if_neg hn0]
  show Real.sqrt ((v.x / v.norm) ^ 2 + (v.y / v.norm) ^ 2 + (v.z / v.norm) ^ 2) = 1
  have h1 : (v.x / v.norm) ^ 2 + (v.y / v.norm) ^ 2 + (v.z / v.norm) ^ 2 = 1 := by
    field_simp
    linarith [hsq]
  rw [h1, Real.sqrt_one]

/-- A vector of norm one is unchanged by normalize_vector. -/
lemma normalize_of_norm_one (v : Vec3) (h : v.norm = 1) : normalize_vector v = v := by
  unfold normalize_vector
  rw [if_neg (by rw [h]; norm_num), h]
  cases v
  simp

/-- Self dot product of a unit vector is one. -/
lemma dot_self_of_norm_one (v : Vec3) (h : v.norm = 1) : Vec3.dot v v = 1 := by
  have hsq := Vec3.sq_norm v
  rw [h] at hsq
  unfold Vec3.dot
  linear_combination -hsq

/-- Orthogonality to a fixed vector is preserved by normalize_vector. -/
lemma dot_normalize_left (v w : Vec3) (h : Vec3.dot v w = 0) :
    Vec3.dot (normalize_vector v) w = 0 := by
  unfold normalize_vector
  by_cases hm : v.norm = 0
  · rw [if_pos hm]
    exact h
  · rw [if_neg hm]
    show v.x / v.norm * w.x + v.y / v.norm * w.y + v.z / v.norm * w.z = 0
    unfold Vec3.dot at h
    field_simp
    linarith [h]

/-- Scalar triple product with a repeated first factor vanishes. -/
lemma dot_cross_left (a b : Vec3) : Vec3.dot (Vec3.cross a b) a = 0 := by
  unfold Vec3.dot Vec3.cross
  ring

/-- Scalar triple product with a repeated second factor vanishes. -/
lemma dot_cross_right (a b : Vec3) : Vec3.dot b (Vec3.cross a b) = 0 := by
  unfold Vec3.dot Vec3.cross
  ring

/-- Lagrange identity for the cross product of 3-vectors. -/
lemma cross_sq_sum (a b : Vec3) :
    (Vec3.cross a b).x ^ 2 + (Vec3.cross a b).y ^ 2 + (Vec3.cross a b).z ^ 2 =
      Vec3.dot a a * Vec3.dot b b - Vec3.dot a b ^ 2 := by
  unfold Vec3.dot Vec3.cross
  ring

/-- The dot product is symmetric. -/
lemma dot_comm (a b : Vec3) : Vec3.dot a b = Vec3.dot b a := by
  unfold Vec3.dot
  ring

/-- The cross product of orthogonal unit vectors is a unit vector. -/
lemma norm_cross_of_units (a b : Vec3) (ha : a.norm = 1) (hb : b.norm = 1)
    (hab : Vec3.dot a b = 0) : (Vec3.cross a b).norm = 1 := by
  have h := cross_sq_sum a b
  rw [dot_self_of_norm_one a ha, dot_self_of_norm_one b hb, hab] at h
  unfold Vec3.norm
  rw [show (Vec3.cross a b).x ^ 2 + (Vec3.cross a b).y ^ 2 + (Vec3.cross a b).z ^ 2 = 1 by
    rw [h]; norm_num]
  exact Real.sqrt_one

/-- C4: for every nonzero normal vector and every hint not parallel to the
normalized normal, the basis built by create_rotation_matrix has three
mutually orthogonal unit columns u, v, n with n the normalized input normal
and v the cross product of n and u. -/
theorem spec_C4 (nv up : Vec3) (hnv : nv ≠ ⟨0, 0, 0⟩)
    (hpar : ¬ ∃ t : ℝ, up = Vec3.smul t (normalize_vector nv)) :
    (create_rotation_matrix nv (some up)).n = normalize_vector nv ∧
    Vec3.norm (create_rotation_matrix nv (some up)).u = 1 ∧
    Vec3.norm (create_rotation_matrix nv (some up)).v = 1 ∧
    Vec3.norm (create_rotation_matrix nv (some up)).n = 1 ∧
    Vec3.dot (create_rotation_matrix nv (some up)).u (create_rotation_matrix nv (some up)).v = 0 ∧
    Vec3.dot (create_rotation_matrix nv (some up)).v (create_rotation_matrix nv (some up)).n = 0 ∧
    Vec3.dot (create_rotation_matrix nv (some up)).u (create_rotation_matrix nv (some up)).n = 0 ∧
    (create_rotation_matrix nv (some up)).v =
      Vec3.cross (create_rotation_matrix nv (some up)).n (create_rotation_matrix nv (some up)).u := by
  have hn1 : (normalize_vector nv).norm = 1 := norm_normalize nv hnv
  set n := normalize_vector nv with hn
  set w := Vec3.sub up (Vec3.smul (Vec3.dot up n) n) with hwdef
  have hw0 : w ≠ ⟨0, 0, 0⟩ := by
    intro h
    apply hpar
    refine ⟨Vec3.dot up n, Vec3.eq_of_components ?_ ?_ ?_⟩
    · have hx := congrArg Vec3.x h
      simp only [hwdef, Vec3.sub, Vec3.smul] at hx ⊢
      linarith [hx]
    · have hy := congrArg Vec3.y h
      simp only [hwdef, Vec3.sub, Vec3.smul] at hy ⊢
      linarith [hy]
    · have hz := congrArg Vec3.z h
      simp only [hwdef, Vec3.sub, Vec3.smul] at hz ⊢
      linarith [hz]
  have hwn : Vec3.dot w n = 0 := by
    have hdnn : Vec3.dot n n = 1 := dot_self_of_norm_one n hn1
    rw [hwdef]
    simp only [Vec3.dot] at hdnn
    simp only [Vec3.dot, Vec3.sub, Vec3.smul]
    linear_combination (-(up.x * n.x + up.y * n.y + up.z * n.z)) * hdnn
  set u := normalize_vector w with hudef
  have hu1 : u.norm = 1 := norm_normalize w hw0
  have hun : Vec3.dot u n = 0 := dot_normalize_left w n hwn
  have hnu : Vec3.dot n u = 0 := by
    rw [dot_comm]
    exact hun
  have hv1 : (Vec3.cross n u).norm = 1 := norm_cross_of_units n u hn1 hu1 hnu
  have hveq : normalize_vector (Vec3.cross n u) = Vec3.cross n u :=
    normalize_of_norm_one _ hv1
  have hB : create_rotation_matrix nv (some up) = ⟨u, Vec3.cross n u, n⟩ := by
    unfold create_rotation_matrix
    simp only [← hn, ← hwdef, ← hudef, hveq]
  rw [hB]
  exact ⟨rfl, hu1, hv1, hn1, dot_cross_right n u, dot_cross_left n u, hun, rfl⟩

/-- The unit z vector is already normalized. -/
lemma normalize_z : normalize_vector ⟨0, 0, 1⟩ = ⟨0, 0, 1⟩ := by
  have h : Vec3.norm ⟨0, 0, 1⟩ = 1 := by
    unfold Vec3.norm
    norm_num [Real.sqrt_one]
  exact normalize_of_norm_one _ h

/-- Witness for C4 at the unit z normal with unit x hint. -/
theorem spec_C4_witness :
    ((⟨0, 0, 1⟩ : Vec3) ≠ ⟨0, 0, 0⟩) ∧
    (¬ ∃ t : ℝ, (⟨1, 0, 0⟩ : Vec3) = Vec3.smul t (normalize_vector ⟨0, 0, 1⟩)) ∧
    ((create_rotation_matrix ⟨0, 0, 1⟩ (some ⟨1, 0, 0⟩)).n = normalize_vector ⟨0, 0, 1⟩ ∧
     Vec3.norm (create_rotation_matrix ⟨0, 0, 1⟩ (some ⟨1, 0, 0⟩)).u = 1 ∧
     Vec3.norm (create_rotation_matrix ⟨0, 0, 1⟩ (some ⟨1, 0, 0⟩)).v = 1 ∧
     Vec3.norm (create_rotation_matrix ⟨0, 0, 1⟩ (some ⟨1, 0, 0⟩)).n = 1 ∧
     Vec3.dot (create_rotation_matrix ⟨0, 0, 1⟩ (some ⟨1, 0, 0⟩)).u
       (create_rotation_matrix ⟨0, 0, 1⟩ (some ⟨1, 0, 0⟩)).v = 0 ∧
     Vec3.dot (create_rotation_matrix ⟨0, 0, 1⟩ (some ⟨1, 0, 0⟩)).v
       (create_rotation_matrix ⟨0, 0, 1⟩ (some ⟨1, 0, 0⟩)).n = 0 ∧
     Vec3.dot (create_rotation_matrix ⟨0, 0, 1⟩ (some ⟨1, 0, 0⟩)).u
       (create_rotation_matrix ⟨0, 0, 1⟩ (some ⟨1, 0, 0⟩)).n = 0 ∧
     (create_rotation_matrix ⟨0, 0, 1⟩ (some ⟨1, 0, 0⟩)).v =
       Vec3.cross (create_rotation_matrix ⟨0, 0, 1⟩ (some ⟨1, 0, 0⟩)).n
         (create_rotation_matrix ⟨0, 0, 1⟩ (some ⟨1, 0, 0⟩)).u) := by
  have h1 : (⟨0, 0, 1⟩ : Vec3) ≠ (⟨0, 0, 0⟩ : Vec3) := by
    intro h
    have hz := congrArg Vec3.z h
    norm_num at hz
  have h2 : ¬ ∃ t : ℝ, (⟨1, 0, 0⟩ : Vec3) = Vec3.smul t (normalize_vector ⟨0, 0, 1⟩) := by
    rintro ⟨t, ht⟩
    rw [normalize_z] at ht
    have hx := congrArg Vec3.x ht
    simp [Vec3.smul] at hx
  exact ⟨h1, h2, spec_C4 ⟨0, 0, 1⟩ ⟨1, 0, 0⟩ h1 h2⟩

/-- The zero vector is unchanged by normalize_vector. -/
lemma normalize_zero : normalize_vector ⟨0, 0, 0⟩ = ⟨0, 0, 0⟩ := by
  unfold normalize_vector
  rw [if_pos ((Vec3.norm_eq_zero_iff _).mpr rfl)]

/-- Mapping a constant-valued function over a list yields a replicate. -/
lemma map_eq_replicate {α β : Type} (l : List α) (f : α → β) (b : β)
    (h : ∀ a, f a = b) : l.map f = List.replicate l.length b := by
  induction l with
  | nil => rfl
  | cons a l ih => simp [h, ih, List.replicate_succ]

/-- When the hint is a scalar multiple of the normalized normal, the basis
silently degenerates: both the u and the v columns collapse to zero. -/
lemma degenerate_basis (nv up : Vec3) (t : ℝ)
    (h : up = Vec3.smul t (normalize_vector nv)) :
    (create_rotation_matrix nv (some up)).u = ⟨0, 0, 0⟩ ∧
    (create_rotation_matrix nv (some up)).v = ⟨0, 0, 0⟩ := by
  have hw : Vec3.sub up
      (Vec3.smul (Vec3.dot up (normalize_vector nv)) (normalize_vector nv)) = ⟨0, 0, 0⟩ := by
    rcases eq_or_ne nv ⟨0, 0, 0⟩ with hz | hz
    · subst hz
      rw [normalize_zero] at h ⊢
      subst h
      apply Vec3.eq_of_components <;> simp [Vec3.sub, Vec3.smul, Vec3.dot]
    · have hn1 := norm_normalize nv hz
      have hdnn := dot_self_of_norm_one _ hn1
      subst h
      refine Vec3.eq_of_components ?_ ?_ ?_
      · simp only [Vec3.sub, Vec3.smul, Vec3.dot] at hdnn ⊢
        linear_combination (-(t * (normalize_vector nv).x)) * hdnn
      · simp only [Vec3.sub, Vec3.smul, Vec3.dot] at hdnn ⊢
        linear_combination (-(t * (normalize_vector nv).y)) * hdnn
      · simp only [Vec3.sub, Vec3.smul, Vec3.dot] at hdnn ⊢
        linear_combination (-(t * (normalize_vector nv).z)) * hdnn
  have hcross : Vec3.cross (normalize_vector nv) (⟨0, 0, 0⟩ : Vec3) = ⟨0, 0, 0⟩ := by
    apply Vec3.eq_of_components <;> simp [Vec3.cross]
  have hB : create_rotation_matrix nv (some up) =
      ⟨⟨0, 0, 0⟩, ⟨0, 0, 0⟩, normalize_vector nv⟩ := by
    unfold create_rotation_matrix
    simp only [hw, normalize_zero, hcross]
  rw [hB]
  exact ⟨rfl, rfl⟩

/-- C9: with an up hint parallel to the normalized normal vector,
create_rotation_matrix raises no error and silently returns a degenerate
basis whose u and v columns are both zero, and calculate_3d_circle_points
with such a hint returns num_points copies of the center pose. -/
theorem spec_C9 (nv up : Vec3) (t : ℝ)
    (hpar : up = Vec3.smul t (normalize_vector nv))
    (r0 : ℝ) (c : Vec3) (radius : ℝ) (N : ℕ) (s e : ℝ) :
    (create_rotation_matrix nv (some up)).u = ⟨0, 0, 0⟩ ∧
    (create_rotation_matrix nv (some up)).v = ⟨0, 0, 0⟩ ∧
    calculate_3d_circle_points r0 c radius nv N s e (some up) =
      Except.ok (List.replicate N ⟨c.x, c.y, c.z, r0⟩) := by
  obtain ⟨hu, hv⟩ := degenerate_basis nv up t hpar
  refine ⟨hu, hv, ?_⟩
  have hpt : ∀ θ : ℝ, circle3dPoint (create_rotation_matrix nv (some up)) c radius r0 θ =
      ⟨c.x, c.y, c.z, r0⟩ := by
    intro θ
    unfold circle3dPoint
    rw [hu, hv]
    simp [Vec3.add, Vec3.smul]
  unfold calculate_3d_circle_points sample_angles
  by_cases h1 : N = 1
  · subst h1
    rw [if_pos rfl]
    show Except.ok ([s].map fun θ =>
      circle3dPoint (create_rotation_matrix nv (some up)) c radius r0 θ) = _
    simp [hpt, List.replicate]
  · rw [if_neg h1]
    have h0 : ((N : ℝ) - 1) ≠ 0 := by
      intro h
      apply h1
      have hN : (N : ℝ) = 1 := by linarith
      exact_mod_cast hN
    unfold pydiv
    rw [if_neg h0]
    show Except.ok _ = Except.ok _
    dsimp only
    rw [map_eq_replicate _ _ _ fun θ => hpt θ]
    simp [List.length_map, List.length_range]

/-- Witness for C9: the hint (0,0,2) is parallel to the normal (0,0,1). -/
theorem spec_C9_witness :
    ((⟨0, 0, 2⟩ : Vec3) = Vec3.smul 2 (normalize_vector ⟨0, 0, 1⟩)) ∧
    ((create_rotation_matrix ⟨0, 0, 1⟩ (some ⟨0, 0, 2⟩)).u = ⟨0, 0, 0⟩ ∧
     (create_rotation_matrix ⟨0, 0, 1⟩ (some ⟨0, 0, 2⟩)).v = ⟨0, 0, 0⟩ ∧
     calculate_3d_circle_points 0 ⟨200, 0, 50⟩ 30 ⟨0, 0, 1⟩ 5 0 360 (some ⟨0, 0, 2⟩) =
       Except.ok (List.replicate 5 ⟨200, 0, 50, 0⟩)) := by
  have h : (⟨0, 0, 2⟩ : Vec3) = Vec3.smul 2 (normalize_vector ⟨0, 0, 1⟩) := by
    rw [normalize_z]
    apply Vec3.eq_of_components <;> simp [Vec3.smul]
  exact ⟨h, spec_C9 ⟨0, 0, 1⟩ ⟨0, 0, 2⟩ 2 h 0 ⟨200, 0, 50⟩ 30 5 0 360⟩

/-- The unit x vector is already normalized. -/
lemma normalize_x : normalize_vector ⟨1, 0, 0⟩ = ⟨1, 0, 0⟩ := by
  have h : Vec3.norm ⟨1, 0, 0⟩ = 1 := by
    unfold Vec3.norm
    norm_num [Real.sqrt_one]
  exact normalize_of_norm_one _ h

/-- The unit y vector is already normalized. -/
lemma normalize_y : normalize_vector ⟨0, 1, 0⟩ = ⟨0, 1, 0⟩ := by
  have h : Vec3.norm ⟨0, 1, 0⟩ = 1 := by
    unfold Vec3.norm
    norm_num [Real.sqrt_one]
  exact normalize_of_norm_one _ h

/-- With unit z normal and unit x hint the basis is the standard frame. -/
lemma basis_z_x : create_rotation_matrix ⟨0, 0, 1⟩ (some ⟨1, 0, 0⟩) =
    ⟨⟨1, 0, 0⟩, ⟨0, 1, 0⟩, ⟨0, 0, 1⟩⟩ := by
  simp only [create_rotation_matrix]
  rw [normalize_z]
  have h1 : Vec3.sub ⟨1, 0, 0⟩
      (Vec3.smul (Vec3.dot ⟨1, 0, 0⟩ ⟨0, 0, 1⟩) ⟨0, 0, 1⟩) = (⟨1, 0, 0⟩ : Vec3) := by
    apply Vec3.eq_of_components <;> simp [Vec3.sub, Vec3.smul, Vec3.dot]
  rw [h1, normalize_x]
  have h2 : Vec3.cross (⟨0, 0, 1⟩ : Vec3) ⟨1, 0, 0⟩ = ⟨0, 1, 0⟩ := by
    apply Vec3.eq_of_components <;> simp [Vec3.cross]
  rw [h2, normalize_y]

/-- C5: with normal (0,0,1) and up hint (1,0,0), the oriented generator
calculate_3d_circle_points reduces exactly to the axis-aligned convention-B
planar computation: every sampled angle yields the global point
(center.x + r cos θ, center.y + r sin θ, center.z). -/
theorem spec_C5 (r0 : ℝ) (c : Vec3) (radius : ℝ) (N : ℕ) (s e : ℝ) :
    calculate_3d_circle_points r0 c radius ⟨0, 0, 1⟩ N s e (some ⟨1, 0, 0⟩) =
      (sample_angles s e N).map fun angles =>
        angles.map fun θ => specPlanarPointB c radius r0 θ := by
  unfold calculate_3d_circle_points
  rw [basis_z_x]
  have hpt : ∀ θ : ℝ, circle3dPoint ⟨⟨1, 0, 0⟩, ⟨0, 1, 0⟩, ⟨0, 0, 1⟩⟩ c radius r0 θ =
      specPlanarPointB c radius r0 θ := by
    intro θ
    unfold circle3dPoint specPlanarPointB
    simp only [Vec3.add, Vec3.smul, Pose.mk.injEq]
    refine ⟨by ring, by ring, by ring, trivial⟩
  simp only [hpt]

/-- C6: evaluation of the two-point semicircle at start (0,0,0), target
(10,0,0) and three points.  Center and radius agree with the claim (midpoint
(5,0,0), radius 5) and the angle range is the fixed 0 to 180 span, but the
sequence runs from the target back to the start: the first generated point
(angle 0) is the target (10,0,0) and the last one (angle 180) is the start
(0,0,0), the reverse of the documented direction of travel. -/
theorem spec_C6_eval :
    two_point_center ⟨0, 0, 0⟩ ⟨10, 0, 0⟩ = ⟨5, 0, 0⟩ ∧
    two_point_radius ⟨0, 0, 0⟩ ⟨10, 0, 0⟩ = 5 ∧
    circle_from_current_to_point_points ⟨0, 0, 0, 0⟩ ⟨10, 0, 0⟩ 3 none =
      Except.ok [⟨10, 0, 0, 0⟩, ⟨5, 0, 5, 0⟩, ⟨0, 0, 0, 0⟩] := by
  have hsub : Vec3.sub ⟨10, 0, 0⟩ ⟨0, 0, 0⟩ = (⟨10, 0, 0⟩ : Vec3) := by
    apply Vec3.eq_of_components <;> simp [Vec3.sub]
  have hnorm10 : Vec3.norm ⟨10, 0, 0⟩ = 10 := by
    unfold Vec3.norm
    rw [show (10 : ℝ) ^ 2 + (0 : ℝ) ^ 2 + (0 : ℝ) ^ 2 = 10 ^ 2 by norm_num,
      Real.sqrt_sq (by norm_num : (0 : ℝ) ≤ 10)]
  have hcenter : two_point_center ⟨0, 0, 0⟩ ⟨10, 0, 0⟩ = ⟨5, 0, 0⟩ := by
    unfold two_point_center
    apply Vec3.eq_of_components <;> norm_num
  have hradius : two_point_radius ⟨0, 0, 0⟩ ⟨10, 0, 0⟩ = 5 := by
    unfold two_point_radius
    rw [hsub, hnorm10]
    norm_num
  have hnormal : two_point_normal ⟨0, 0, 0⟩ ⟨10, 0, 0⟩ = ⟨0, -10, 0⟩ := by
    simp only [two_point_normal]
    rw [hsub, hnorm10]
    rw [if_pos (by norm_num : |(Vec3.mk 10 0 0).z| < 0.9 * 10)]
    apply Vec3.eq_of_components <;> simp [Vec3.cross]
  have hnn : Vec3.norm ⟨0, -10, 0⟩ = 10 := by
    unfold Vec3.norm
    rw [show (0 : ℝ) ^ 2 + (-10 : ℝ) ^ 2 + (0 : ℝ) ^ 2 = 10 ^ 2 by norm_num,
      Real.sqrt_sq (by norm_num : (0 : ℝ) ≤ 10)]
  have hnv : normalize_vector ⟨0, -10, 0⟩ = ⟨0, -1, 0⟩ := by
    unfold normalize_vector
    rw [if_neg (by rw [hnn]; norm_num), hnn]
    apply Vec3.eq_of_components <;> norm_num
  have hbasis : create_rotation_matrix ⟨0, -10, 0⟩ none =
      ⟨⟨1, 0, 0⟩, ⟨0, 0, 1⟩, ⟨0, -1, 0⟩⟩ := by
    simp only [create_rotation_matrix]
    rw [hnv]
    rw [if_pos (by norm_num : |(Vec3.mk 0 (-1) 0).x| < 0.9)]
    have h1 : Vec3.sub ⟨1, 0, 0⟩
        (Vec3.smul (Vec3.dot ⟨1, 0, 0⟩ ⟨0, -1, 0⟩) ⟨0, -1, 0⟩) = (⟨1, 0, 0⟩ : Vec3) := by
      apply Vec3.eq_of_components <;> simp [Vec3.sub, Vec3.smul, Vec3.dot]
    rw [h1, normalize_x]
    have h2 : Vec3.cross (⟨0, -1, 0⟩ : Vec3) ⟨1, 0, 0⟩ = ⟨0, 0, 1⟩ := by
      apply Vec3.eq_of_components <;> simp [Vec3.cross]
    rw [h2, normalize_z]
  have hangles : sample_angles 0 180 3 = Except.ok [0, 90, 180] := by
    unfold sample_angles pydiv
    rw [if_neg (by norm_num : (3 : ℕ) ≠ 1), if_neg (by norm_num : ((3 : ℕ) : ℝ) - 1 ≠ 0)]
    show Except.ok _ = Except.ok _
    dsimp only
    rw [show List.range 3 = [0, 1, 2] from rfl]
    norm_num [List.map_cons, List.map_nil]
  have hp0 : circle3dPoint ⟨⟨1, 0, 0⟩, ⟨0, 0, 1⟩, ⟨0, -1, 0⟩⟩ ⟨5, 0, 0⟩ 5 0 0 =
      ⟨10, 0, 0, 0⟩ := by
    unfold circle3dPoint
    rw [show radians 0 = 0 by unfold radians; ring]
    simp only [Real.cos_zero, Real.sin_zero, Vec3.add, Vec3.smul]
    norm_num [Pose.mk.injEq]
  have hp90 : circle3dPoint ⟨⟨1, 0, 0⟩, ⟨0, 0, 1⟩, ⟨0, -1, 0⟩⟩ ⟨5, 0, 0⟩ 5 0 90 =
      ⟨5, 0, 5, 0⟩ := by
    unfold circle3dPoint
    rw [show radians 90 = Real.pi / 2 by unfold radians; ring]
    simp only [Real.cos_pi_div_two, Real.sin_pi_div_two, Vec3.add, Vec3.smul]
    norm_num [Pose.mk.injEq]
  have hp180 : circle3dPoint ⟨⟨1, 0, 0⟩, ⟨0, 0, 1⟩, ⟨0, -1, 0⟩⟩ ⟨5, 0, 0⟩ 5 0 180 =
      ⟨0, 0, 0, 0⟩ := by
    unfold circle3dPoint
    rw [show radians 180 = Real.pi by unfold radians; ring]
    simp only [Real.cos_pi, Real.sin_pi, Vec3.add, Vec3.smul]
    norm_num [Pose.mk.injEq]
  refine ⟨hcenter, hradius, ?_⟩
  simp only [circle_from_current_to_point_points]
  rw [hcenter, hradius, hnormal]
  unfold calculate_3d_circle_points
  rw [hbasis, hangles]
  show Except.ok _ = Except.ok _
  dsimp only
  rw [List.map_cons, List.map_cons, List.map_cons, List.map_nil, hp0, hp90, hp180]

end DobotMagician
